import Mathlib

/-
Verification development for the nonlocal-forage repository.

This file shallowly embeds the pieces of the source that the claims are
about:

* the key sanitizer `safeify` / `unsafeify` (src/serializer.ts);
* the value codec `serialize` / `deserialize` / `approxSize`
  (src/serializer.ts);
* the remote file-path builder `cloudDirectory` (src/util.ts);
* the cache/writeback engine `cacheForage` (src/main.ts, the variant with
  the error latch, per-key lock and cached-size counter).

JavaScript strings are modelled as lists of UTF-16 code units (`List Nat`,
each element < 0x10000); this is necessary because the sanitizer can
produce lone surrogates, which Lean's `Char`/`String` cannot represent.
-/

namespace NonlocalForage

/-- UTF-16 code units of a Lean string, as a JavaScript engine would see
them: scalar values below 0x10000 are one unit, astral scalar values are
encoded as a surrogate pair. -/
def strUnits (s : String) : List Nat :=
  (s.data.map (fun c =>
    if c.toNat < 0x10000 then [c.toNat]
    else [0xD800 + (c.toNat - 0x10000) / 0x400,
          0xDC00 + (c.toNat - 0x10000) % 0x400])).flatten

/-- High-surrogate test on a UTF-16 code unit. -/
def isHighSurrogate (u : Nat) : Bool :=
  0xD800 ≤ u && u ≤ 0xDBFF

/-- Low-surrogate test on a UTF-16 code unit. -/
def isLowSurrogate (u : Nat) : Bool :=
  0xDC00 ≤ u && u ≤ 0xDFFF

/-- Code unit of the lowercase hex digit for a value below 16
(mirrors `Number.prototype.toString(16)`, which emits lowercase). -/
def hexDigit (n : Nat) : Nat :=
  if n < 10 then 0x30 + n else 0x57 + n

/-- The two hex digits of `cc.toString(16).padStart(2, "0")` for
`cc ≤ 0xFF`. -/
def hex2 (c : Nat) : List Nat :=
  [hexDigit (c / 16 % 16), hexDigit (c % 16)]

/-- The four hex digits of `cc.toString(16).padStart(4, "0")` for a UTF-16
code unit `cc` (always < 0x10000). -/
def hex4 (c : Nat) : List Nat :=
  [hexDigit (c / 4096 % 16), hexDigit (c / 256 % 16),
   hexDigit (c / 16 % 16), hexDigit (c % 16)]

/-- The regex test `/^[a-z0-9_-]$/.test(c)` on a one-code-unit string. -/
def isSafeChar (u : Nat) : Bool :=
  (0x61 ≤ u && u ≤ 0x7A) || (0x30 ≤ u && u ≤ 0x39) || u == 0x5F || u == 0x2D

/-- One iteration of safeify's map for an `Array.from` element that is a
single code unit `c`: pass `[a-z0-9_-]` through, emit `%XX` for
`c ≤ 0xFF`, `%uXXXX` otherwise (`charCodeAt(0)` of a one-unit string is
that unit). -/
def safeifyUnit (c : Nat) : List Nat :=
  if isSafeChar c then [c]
  else if c ≤ 0xFF then 0x25 :: hex2 c
  else 0x25 :: 0x75 :: hex4 c

/-- src/serializer.ts `safeify`: iterates `Array.from(key)`, i.e. by code
point, so a valid surrogate pair is a single two-unit element; the regex
test fails on it and `charCodeAt(0)` yields only the *high* surrogate,
which is what gets escaped (`%u` + 4 hex digits of the high unit alone —
the low unit is dropped). A lone surrogate is its own one-unit element. -/
def safeify : List Nat → List Nat
  | [] => []
  | [c] => safeifyUnit c
  | c :: c2 :: rest =>
    if isHighSurrogate c && isLowSurrogate c2 then
      0x25 :: 0x75 :: (hex4 c ++ safeify rest)
    else
      safeifyUnit c ++ safeify (c2 :: rest)

/-- Hex value of a code unit, or `none` (mirrors the digits `parseInt`
accepts with radix 16, including uppercase). -/
def hexVal (u : Nat) : Option Nat :=
  if 0x30 ≤ u && u ≤ 0x39 then some (u - 0x30)
  else if 0x61 ≤ u && u ≤ 0x66 then some (u - 0x57)
  else if 0x41 ≤ u && u ≤ 0x46 then some (u - 0x37)
  else none

/-- Accumulator loop for `parseIntHexChar`. -/
def parseHexAux : List Nat → Option Nat → Option Nat
  | [], acc => acc
  | c :: rest, acc =>
    match hexVal c with
    | some d => parseHexAux rest (some (acc.getD 0 * 16 + d))
    | none => acc

/-- `String.fromCharCode(parseInt(ccs, 16))` as used by `unsafeify`:
`parseInt` reads the longest hex prefix (empty prefix gives `NaN`), and
`fromCharCode(NaN)` is code unit 0. The input here is at most 4 digits,
so no 2^16 reduction is needed. -/
def parseIntHexChar (cs : List Nat) : Nat :=
  (parseHexAux cs none).getD 0

/-- Fuel-driven loop body of `unsafeify` (structural recursion on the
fuel so that the kernel can evaluate it; every step consumes at least one
code unit, so fuel equal to the input length is always sufficient). -/
def unsafeifyGo : Nat → List Nat → List Nat
  | 0, _ => []
  | _, [] => []
  | fuel + 1, c :: rest =>
    if c = 0x25 then
      if rest.head? = some 0x75 then
        parseIntHexChar ((rest.drop 1).take 4) :: unsafeifyGo fuel (rest.drop 6)
      else
        parseIntHexChar (rest.take 2) :: unsafeifyGo fuel (rest.drop 3)
    else
      c :: unsafeifyGo fuel rest

/-- src/serializer.ts `unsafeify`: scans by index; on `%` it reads either
4 hex digits (after `u`) or 2 hex digits. Note the source advances
`i += 6` (resp. `i += 3`) *and* the `for` loop then performs `i++`, so
after every escape one further code unit of the input is skipped:
`rest.drop 6` (resp. `rest.drop 3`) drops one unit more than the escape
itself occupies. -/
def unsafeify (l : List Nat) : List Nat :=
  unsafeifyGo l.length l

/-- C4: the claim says `unsafeify (safeify k) = k` for every string,
including strings with an escape-producing character followed by further
characters and strings with astral characters. Both fail on the code:
after decoding an escape, `unsafeify` skips the following character
(`i += 3`/`i += 6` together with the loop's `i++`), so
`unsafeify (safeify "Aa") = "A"`; and `safeify` escapes only the high
surrogate of an astral code point, so U+1D11E (units
`[0xD834, 0xDD1E]`) round-trips to the lone unit `[0xD834]`. -/
theorem unsafeify_safeify_not_inverse :
    unsafeify (safeify (strUnits "Aa")) = strUnits "A" ∧
    strUnits "A" ≠ strUnits "Aa" ∧
    unsafeify (safeify [0xD834, 0xDD1E]) = [0xD834] ∧
    ([0xD834] : List Nat) ≠ [0xD834, 0xDD1E] := by
  refine ⟨?_, ?_, ?_, ?_⟩ <;> decide

/-- Sanity check: the identity does hold on strings drawn from the safe
alphabet, and on a string that ends (rather than continues) after its
single escape. -/
theorem unsafeify_safeify_sanity :
    unsafeify (safeify (strUnits "abc_-09")) = strUnits "abc_-09" ∧
    unsafeify (safeify (strUnits "x%")) = strUnits "x%" := by
  refine ⟨?_, ?_⟩ <;> decide

mutual

/-- JSON-representable data, as handled by the serializer's `JSON` branch.
Numbers are restricted to integers in this model (the claims under
verification never hinge on float formatting). Arrays and objects carry
their children through the mutual types `JSONList` / `JSONFields` so that
all recursion over the tree is plain structural recursion. -/
inductive JSONLite
  | null
  | bool (b : Bool)
  | num (n : Int)
  | str (s : String)
  | arr (elems : JSONList)
  | obj (fields : JSONFields)

/-- A list of JSON array elements. -/
inductive JSONList
  | nil
  | cons (hd : JSONLite) (tl : JSONList)

/-- An insertion-ordered list of JSON object members. -/
inductive JSONFields
  | nil
  | cons (key : String) (val : JSONLite) (tl : JSONFields)

end

/-- JSON string escaping of one character, as `JSON.stringify` performs
it: quote, backslash and control characters are escaped, everything else
is passed through raw. -/
def jsonQuoteChar (c : Char) : String :=
  if c = '"' then "\\\""
  else if c = '\\' then "\\\\"
  else if c.toNat = 0x08 then "\\b"
  else if c.toNat = 0x09 then "\\t"
  else if c.toNat = 0x0A then "\\n"
  else if c.toNat = 0x0C then "\\f"
  else if c.toNat = 0x0D then "\\r"
  else if c.toNat < 0x20 then
    "\\u00" ++ String.mk [Char.ofNat (hexDigit (c.toNat / 16 % 16)),
                          Char.ofNat (hexDigit (c.toNat % 16))]
  else String.singleton c

/-- JSON string literal for `s`, per `JSON.stringify`. -/
def jsonQuote (s : String) : String :=
  "\"" ++ String.join (s.data.map jsonQuoteChar) ++ "\""

mutual

/-- `JSON.stringify` (no spaces, insertion-ordered keys). -/
def stringifyJSON : JSONLite → String
  | .null => "null"
  | .bool true => "true"
  | .bool false => "false"
  | .num n => toString n
  | .str s => jsonQuote s
  | .arr es => "[" ++ stringifyElems es ++ "]"
  | .obj fs => "\x7b" ++ stringifyFields fs ++ "\x7d"

/-- Comma-joined stringification of array elements. -/
def stringifyElems : JSONList → String
  | .nil => ""
  | .cons e .nil => stringifyJSON e
  | .cons e rest => stringifyJSON e ++ "," ++ stringifyElems rest

/-- Comma-joined stringification of object fields. -/
def stringifyFields : JSONFields → String
  | .nil => ""
  | .cons k v .nil => jsonQuote k ++ ":" ++ stringifyJSON v
  | .cons k v rest =>
    jsonQuote k ++ ":" ++ stringifyJSON v ++ "," ++ stringifyFields rest

end

/-- UTF-8 encoding of one scalar value (`TextEncoder`). -/
def utf8EncodeChar (c : Char) : List Nat :=
  let n := c.toNat
  if n < 0x80 then [n]
  else if n < 0x800 then [0xC0 + n / 0x40, 0x80 + n % 0x40]
  else if n < 0x10000 then
    [0xE0 + n / 0x1000, 0x80 + n / 0x40 % 0x40, 0x80 + n % 0x40]
  else
    [0xF0 + n / 0x40000, 0x80 + n / 0x1000 % 0x40,
     0x80 + n / 0x40 % 0x40, 0x80 + n % 0x40]

/-- UTF-8 encoding of a string (`TextEncoder.encode`). -/
def utf8Encode (s : String) : List Nat :=
  (s.data.map utf8EncodeChar).flatten

/-- Scalar-value validity check used when decoding. -/
def isValidScalar (n : Nat) : Bool :=
  n < 0xD800 || (0xDFFF < n && n < 0x110000)

/-- UTF-8 decoding (`TextDecoder.decode`); malformed input is modelled as
failure (a real `TextDecoder` substitutes U+FFFD, after which the
subsequent `JSON.parse` fails anyway on the data this program feeds it). -/
def utf8DecodeGo : List Nat → List Char → Option (List Char)
  | [], acc => some acc.reverse
  | b :: rest, acc =>
    if b < 0x80 then utf8DecodeGo rest (Char.ofNat b :: acc)
    else if b < 0xC0 then none
    else if b < 0xE0 then
      match rest with
      | b2 :: rest2 =>
        if 0x80 ≤ b2 && b2 < 0xC0 then
          let n := (b - 0xC0) * 0x40 + (b2 - 0x80)
          if 0x80 ≤ n && isValidScalar n then
            utf8DecodeGo rest2 (Char.ofNat n :: acc)
          else none
        else none
      | [] => none
    else if b < 0xF0 then
      match rest with
      | b2 :: b3 :: rest3 =>
        if (0x80 ≤ b2 && b2 < 0xC0) && (0x80 ≤ b3 && b3 < 0xC0) then
          let n := (b - 0xE0) * 0x1000 + (b2 - 0x80) * 0x40 + (b3 - 0x80)
          if 0x800 ≤ n && isValidScalar n then
            utf8DecodeGo rest3 (Char.ofNat n :: acc)
          else none
        else none
      | _ => none
    else if b < 0xF8 then
      match rest with
      | b2 :: b3 :: b4 :: rest4 =>
        if (0x80 ≤ b2 && b2 < 0xC0) && (0x80 ≤ b3 && b3 < 0xC0) &&
           (0x80 ≤ b4 && b4 < 0xC0) then
          let n := (b - 0xF0) * 0x40000 + (b2 - 0x80) * 0x1000 +
                   (b3 - 0x80) * 0x40 + (b4 - 0x80)
          if 0x10000 ≤ n && isValidScalar n then
            utf8DecodeGo rest4 (Char.ofNat n :: acc)
          else none
        else none
      | _ => none
    else none

/-- UTF-8 decoding entry point. -/
def utf8Decode (bs : List Nat) : Option (List Char) :=
  utf8DecodeGo bs []

/-- Consume an expected literal character sequence. -/
def dropPrefixLit : List Char → List Char → Option (List Char)
  | [], rest => some rest
  | p :: ps, c :: rest => if c = p then dropPrefixLit ps rest else none
  | _ :: _, [] => none

/-- Parse the remainder of a JSON string literal (after the opening
quote), per `JSON.parse`. -/
def jpStringGo : List Char → String → Option (String × List Char)
  | [], _ => none
  | '"' :: rest, acc => some (acc, rest)
  | '\\' :: 'u' :: a :: b :: c :: d :: rest, acc =>
    (match hexVal a.toNat, hexVal b.toNat, hexVal c.toNat, hexVal d.toNat with
     | some ha, some hb, some hc, some hd =>
       let n := ((ha * 16 + hb) * 16 + hc) * 16 + hd
       if isValidScalar n then jpStringGo rest (acc.push (Char.ofNat n))
       else none
     | _, _, _, _ => none)
  | '\\' :: e :: rest, acc =>
    if e = '"' then jpStringGo rest (acc.push '"')
    else if e = '\\' then jpStringGo rest (acc.push '\\')
    else if e = '/' then jpStringGo rest (acc.push '/')
    else if e = 'b' then jpStringGo rest (acc.push (Char.ofNat 0x08))
    else if e = 'f' then jpStringGo rest (acc.push (Char.ofNat 0x0C))
    else if e = 'n' then jpStringGo rest (acc.push (Char.ofNat 0x0A))
    else if e = 'r' then jpStringGo rest (acc.push (Char.ofNat 0x0D))
    else if e = 't' then jpStringGo rest (acc.push (Char.ofNat 0x09))
    else none
  | c :: rest, acc => jpStringGo rest (acc.push c)

/-- Parse a run of decimal digits, accumulating. -/
def jpDigitsGo : List Char → Nat → Nat × List Char
  | [], acc => (acc, [])
  | c :: rest, acc =>
    if c.isDigit then jpDigitsGo rest (acc * 10 + (c.toNat - 0x30))
    else (acc, c :: rest)

/-- Parse a JSON integer (the only number shape `stringifyJSON`
produces). -/
def jpNumber : List Char → Option (JSONLite × List Char)
  | [] => none
  | c :: rest =>
    if c = '-' then
      match rest with
      | d :: rest2 =>
        if d.isDigit then
          let p := jpDigitsGo rest2 (d.toNat - 0x30)
          some (.num (-(p.1 : Int)), p.2)
        else none
      | [] => none
    else if c.isDigit then
      let p := jpDigitsGo rest (c.toNat - 0x30)
      some (.num (p.1 : Int), p.2)
    else none

mutual

/-- Fuel-driven recursive-descent `JSON.parse`, restricted to the
whitespace-free output format of `JSON.stringify`. -/
def jpValue : Nat → List Char → Option (JSONLite × List Char)
  | 0, _ => none
  | fuel + 1, cs =>
    match cs with
    | [] => none
    | c :: rest =>
      if c = '"' then
        match jpStringGo rest "" with
        | some (s, rest2) => some (.str s, rest2)
        | none => none
      else if c = '[' then
        match rest with
        | c2 :: rest2 =>
          if c2 = ']' then some (.arr .nil, rest2)
          else
            match jpElems fuel (c2 :: rest2) with
            | some (es, rest3) => some (.arr es, rest3)
            | none => none
        | [] => none
      else if c = Char.ofNat 0x7B then
        match rest with
        | c2 :: rest2 =>
          if c2 = Char.ofNat 0x7D then some (.obj .nil, rest2)
          else
            match jpFields fuel (c2 :: rest2) with
            | some (fs, rest3) => some (.obj fs, rest3)
            | none => none
        | [] => none
      else if c = 'n' then
        (dropPrefixLit ['u', 'l', 'l'] rest).map (fun r => (.null, r))
      else if c = 't' then
        (dropPrefixLit ['r', 'u', 'e'] rest).map (fun r => (.bool true, r))
      else if c = 'f' then
        (dropPrefixLit ['a', 'l', 's', 'e'] rest).map (fun r => (.bool false, r))
      else jpNumber (c :: rest)

/-- Parse one-or-more array elements up to the closing bracket. -/
def jpElems : Nat → List Char → Option (JSONList × List Char)
  | 0, _ => none
  | fuel + 1, cs =>
    match jpValue fuel cs with
    | some (v, rest) =>
      match rest with
      | c :: rest2 =>
        if c = ',' then
          match jpElems fuel rest2 with
          | some (vs, rest3) => some (.cons v vs, rest3)
          | none => none
        else if c = ']' then some (.cons v .nil, rest2)
        else none
      | [] => none
    | none => none

/-- Parse one-or-more object members up to the closing brace. -/
def jpFields : Nat → List Char → Option (JSONFields × List Char)
  | 0, _ => none
  | fuel + 1, cs =>
    match cs with
    | '"' :: rest =>
      match jpStringGo rest "" with
      | some (k, rest2) =>
        match rest2 with
        | c :: rest3 =>
          if c = ':' then
            match jpValue fuel rest3 with
            | some (v, rest4) =>
              match rest4 with
              | c2 :: rest5 =>
                if c2 = ',' then
                  match jpFields fuel rest5 with
                  | some (fs, rest6) => some (.cons k v fs, rest6)
                  | none => none
                else if c2 = Char.ofNat 0x7D then some (.cons k v .nil, rest5)
                else none
              | [] => none
            | none => none
          else none
        | [] => none
      | none => none
    | _ => none

end

/-- `JSON.parse`, requiring the whole input to be consumed. -/
def jsonParse (s : String) : Option JSONLite :=
  match jpValue (s.length + 1) s.data with
  | some (j, []) => some j
  | _ => none

/-- First field of the given name (`JSON.parse` keeps the last duplicate,
but `JSON.stringify` never emits duplicates, so first-wins is
equivalent on this program's data). -/
def fieldsFind : JSONFields → String → Option JSONLite
  | .nil, _ => none
  | .cons k v rest, name => if k = name then some v else fieldsFind rest name

/-- JavaScript property read `o[name]` on a parsed JSON value: `none`
models `undefined`. -/
def getField (j : JSONLite) (name : String) : Option JSONLite :=
  match j with
  | .obj fs => fieldsFind fs name
  | _ => none

/-- The `ArrayBuffer`-view kinds recognized by `serialize`'s
`instanceof` chain. -/
inductive TAKind
  | uint8
  | uint8Clamped
  | int16
  | uint16
  | int32
  | uint32
  | float32
  | float64
  | dataView
deriving DecidableEq

/-- The JavaScript constructor name recorded in the descriptor's
`taType` field. -/
def taName : TAKind → String
  | .uint8 => "Uint8Array"
  | .uint8Clamped => "Uint8ClampedArray"
  | .int16 => "Int16Array"
  | .uint16 => "Uint16Array"
  | .int32 => "Int32Array"
  | .uint32 => "Uint32Array"
  | .float32 => "Float32Array"
  | .float64 => "Float64Array"
  | .dataView => "DataView"

/-- The `switch (desc.taType)` table of `deserialize`. -/
def taKindOfName (s : String) : Option TAKind :=
  if s = "Uint8Array" then some .uint8
  else if s = "Uint8ClampedArray" then some .uint8Clamped
  else if s = "Int16Array" then some .int16
  else if s = "Uint16Array" then some .uint16
  else if s = "Int32Array" then some .int32
  else if s = "Uint32Array" then some .uint32
  else if s = "Float32Array" then some .float32
  else if s = "Float64Array" then some .float64
  else if s = "DataView" then some .dataView
  else none

/-- `ta.BYTES_PER_ELEMENT || 1` as `deserialize` computes it
(`DataView.BYTES_PER_ELEMENT` is `undefined`, hence 1). -/
def bytesPerElement : TAKind → Nat
  | .uint8 => 1
  | .uint8Clamped => 1
  | .int16 => 2
  | .uint16 => 2
  | .int32 => 4
  | .uint32 => 4
  | .float32 => 4
  | .float64 => 8
  | .dataView => 1

/-- An `ArrayBuffer` view: its element kind, the byte length of the
*whole underlying buffer*, the view's byte offset and byte length within
it, and the bytes visible through the view. -/
structure TAView where
  kind : TAKind
  bufferLen : Nat
  byteOffset : Nat
  byteLength : Nat
  viewBytes : List Nat
deriving DecidableEq

/-- A value handled by the serializer, split exactly along the
classification `serialize` performs: an `ArrayBuffer` view, a raw
`ArrayBuffer`, anything JSON-serializable, or `undefined`. -/
inductive JSValue
  | json (j : JSONLite)
  | typedArray (v : TAView)
  | arrayBuffer (bytes : List Nat)
  | undef

/-- The descriptor `JSON.stringify(desc)` string that `serialize` builds:
insertion-ordered keys, no spaces; for `undefined` data the `data` key is
omitted by `JSON.stringify`. -/
def descriptorString : JSValue → String
  | .typedArray v =>
    "\x7b\"type\":\"TypedArray\",\"taType\":\"" ++ taName v.kind ++ "\"\x7d"
  | .arrayBuffer _ => "\x7b\"type\":\"ArrayBuffer\"\x7d"
  | .json j => "\x7b\"type\":\"JSON\",\"data\":" ++ stringifyJSON j ++ "\x7d"
  | .undef => "\x7b\"type\":\"JSON\"\x7d"

/-- The 4 little-endian bytes that
`(new Uint32Array(serialized.buffer, 0, 1))[0] = n` stores (JavaScript
typed arrays use platform byte order; all supported platforms are
little-endian). -/
def le32 (n : Nat) : List Nat :=
  [n % 256, n / 256 % 256, n / 65536 % 256, n / 16777216 % 256]

/-- The little-endian 32-bit read
`(new Uint32Array(data.buffer, data.byteOffset, 1))[0]` performed by
`deserialize` on a fresh (offset-0) serialized buffer. -/
def readLE32 (l : List Nat) : Nat :=
  match l with
  | a :: b :: c :: d :: _ => a + 256 * b + 65536 * c + 16777216 * d
  | _ => 0

/-- src/serializer.ts `serialize`: 4-byte little-endian descriptor
length, then the UTF-8 descriptor, then the raw payload (the view's
window `new Uint8Array(data.buffer, data.byteOffset, data.byteLength)`
for views, the whole buffer for `ArrayBuffer`, nothing for JSON). -/
def serialize (v : JSValue) : List Nat :=
  let descU8 := utf8Encode (descriptorString v)
  let post :=
    match v with
    | .typedArray tv => tv.viewBytes
    | .arrayBuffer bs => bs
    | _ => []
  le32 descU8.length ++ descU8 ++ post

/-- The exceptions `deserialize` can raise: a `JSON.parse` failure, the
`RangeError` from constructing a misaligned or fractional-length view,
the `TypeError` from calling the non-existent `DataView.prototype.slice`,
and the two explicit `throw new Error(...)` branches. -/
inductive DeserializeError
  | jsonSyntaxError
  | rangeError
  | typeError
  | unrecognizedTypeError
  | unrecognizedTATypeError
deriving DecidableEq

/-- src/serializer.ts `deserialize`, applied to a fresh serialized buffer
(byte offset 0). `post = data.subarray(4 + descSize)` is a view whose
`byteOffset` *within the original buffer* is `4 + descSize`; the code
then constructs `new ta(post.buffer, post.byteOffset, post.byteLength /
BYTES_PER_ELEMENT)`, which per the ECMAScript TypedArray-constructor
semantics throws a `RangeError` when that offset is not a multiple of
`BYTES_PER_ELEMENT` or when the length argument is not an integer; the
`DataView` branch constructs successfully but then calls `.slice(0)`,
which `DataView` does not have (`TypeError`). -/
def deserialize (data : List Nat) : Except DeserializeError JSValue :=
  let descSize := readLE32 data
  let descU8 := (data.drop 4).take descSize
  match utf8Decode descU8 with
  | none => .error .jsonSyntaxError
  | some descChars =>
    match jsonParse (String.mk descChars) with
    | none => .error .jsonSyntaxError
    | some desc =>
      let post := data.drop (4 + descSize)
      let postOffset := 4 + descSize
      match getField desc "type" with
      | some (.str "TypedArray") =>
        match getField desc "taType" with
        | some (.str tn) =>
          (match taKindOfName tn with
           | some kind =>
             if kind = .dataView then
               .error .typeError
             else
               let bpe := bytesPerElement kind
               if postOffset % bpe ≠ 0 then .error .rangeError
               else if post.length % bpe ≠ 0 then .error .rangeError
               else
                 .ok (.typedArray
                   { kind := kind, bufferLen := post.length, byteOffset := 0,
                     byteLength := post.length, viewBytes := post })
           | none => .error .unrecognizedTATypeError)
        | _ => .error .unrecognizedTATypeError
      | some (.str "ArrayBuffer") => .ok (.arrayBuffer post)
      | some (.str "JSON") =>
        (match getField desc "data" with
         | some j => .ok (.json j)
         | none => .ok .undef)
      | _ => .error .unrecognizedTypeError

/-- src/serializer.ts `approxSize`: a view is accounted at the byte
length of its *entire underlying buffer*; a raw `ArrayBuffer` at its byte
length; everything else at `JSON.stringify(data).length`, which for
`undefined` throws a `TypeError` (modelled as `none`). -/
def approxSize : JSValue → Option Int
  | .typedArray v => some (v.bufferLen : Int)
  | .arrayBuffer bs => some (bs.length : Int)
  | .json j => some ((stringifyJSON j).length : Int)
  | .undef => none

/-- A 2-byte `Int16Array` of the single element 1, with its natural
buffer. -/
def int16Example : TAView :=
  { kind := .int16, bufferLen := 2, byteOffset := 0, byteLength := 2,
    viewBytes := [1, 0] }

/-- A 1-byte `DataView` over its own buffer. -/
def dataViewExample : TAView :=
  { kind := .dataView, bufferLen := 1, byteOffset := 0, byteLength := 1,
    viewBytes := [7] }

/-- C5: the claim says `deserialize(serialize(v))` succeeds for every
supported typed-array kind. It does not: for `Int16Array` the
reconstructed view starts at byte offset 4 + 43 = 47 inside the original
serialized buffer, and 47 is not a multiple of `BYTES_PER_ELEMENT` (2),
so the TypedArray constructor throws a `RangeError` (likewise
`Int32Array`, `Float32Array`, `Float64Array`); for `DataView`, the code
calls `.slice(0)` on the reconstructed `DataView`, a method `DataView`
does not have, so it throws a `TypeError`. -/
theorem deserialize_serialize_fails_for_misaligned_kinds :
    deserialize (serialize (.typedArray int16Example)) =
      .error .rangeError ∧
    deserialize (serialize (.typedArray dataViewExample)) =
      .error .typeError := by
  exact ⟨rfl, rfl⟩

/-- Sanity check: the kinds whose reconstruction offset happens to be
aligned, the raw-buffer kind and plain JSON data do round-trip. -/
theorem deserialize_serialize_sanity :
    deserialize (serialize (.typedArray
      { kind := .uint8, bufferLen := 3, byteOffset := 0, byteLength := 3,
        viewBytes := [5, 6, 7] })) =
      .ok (.typedArray
        { kind := .uint8, bufferLen := 3, byteOffset := 0, byteLength := 3,
          viewBytes := [5, 6, 7] }) ∧
    deserialize (serialize (.typedArray
      { kind := .uint16, bufferLen := 2, byteOffset := 0, byteLength := 2,
        viewBytes := [1, 0] })) =
      .ok (.typedArray
        { kind := .uint16, bufferLen := 2, byteOffset := 0, byteLength := 2,
          viewBytes := [1, 0] }) ∧
    deserialize (serialize (.arrayBuffer [9, 8])) =
      .ok (.arrayBuffer [9, 8]) ∧
    deserialize (serialize (.json (.str "hi"))) = .ok (.json (.str "hi")) := by
  exact ⟨rfl, rfl, rfl, rfl⟩

/-- C10: `approxSize` of any view is the byte length of the view's whole
underlying buffer, so a short view over a larger buffer is accounted at
strictly more than its own byte length, and on every `ArrayBuffer` and
every JSON-serializable value the result is a non-negative integer. -/
theorem approxSize_spec :
    (∀ v : TAView, approxSize (.typedArray v) = some (v.bufferLen : Int)) ∧
    (∀ v : TAView, v.byteLength < v.bufferLen →
      ∀ n : Int, approxSize (.typedArray v) = some n →
        (v.byteLength : Int) < n) ∧
    (∀ bs : List Nat, approxSize (.arrayBuffer bs) = some (bs.length : Int)) ∧
    (∀ w : JSValue, w ≠ .undef → ∃ n : Int, approxSize w = some n ∧ 0 ≤ n) := by
  refine ⟨fun v => rfl, fun v hlt n hn => ?_, fun bs => rfl, fun w hw => ?_⟩
  · have : n = (v.bufferLen : Int) := by
      simpa [approxSize] using hn.symm
    subst this
    exact_mod_cast hlt
  · cases w with
    | json j => exact ⟨_, rfl, Int.ofNat_nonneg _⟩
    | typedArray v => exact ⟨_, rfl, Int.ofNat_nonneg _⟩
    | arrayBuffer bs => exact ⟨_, rfl, Int.ofNat_nonneg _⟩
    | undef => exact absurd rfl hw

/-- A 2-byte `Uint8Array` view over a 10-byte buffer. -/
def shortView : TAView :=
  { kind := .uint8, bufferLen := 10, byteOffset := 4, byteLength := 2,
    viewBytes := [1, 2] }

/-- Witness for C10 at a concrete short view over a larger buffer: the
view is accounted at the full 10 buffer bytes, strictly above its own 2
bytes, and a concrete JSON value gets a non-negative size. -/
theorem approxSize_spec_witness :
    approxSize (.typedArray shortView) = some 10 ∧
    ((2 : Nat) : Int) < 10 ∧
    (∃ n : Int, approxSize (.json .null) = some n ∧ 0 ≤ n) := by
  refine ⟨approxSize_spec.1 shortView, ?_, approxSize_spec.2.2.2 (.json .null) (by intro h; cases h)⟩
  exact approxSize_spec.2.1 shortView (by decide) 10 (approxSize_spec.1 shortView)

/-- The `nonlocalForage` sub-object of a driver options object, with the
fields `cloudDirectory` consults plus the documented `noName` flag
(src/nlf-options.ts). -/
structure NlfDirOptions where
  directory : Option (List Nat)
  noName : Bool
  noStore : Bool

/-- The slice of a localforage options object that `cloudDirectory`
reads: `name`, `storeName` and the optional `nonlocalForage`
sub-object. Absent string fields are `none`. -/
structure CloudDirOptions where
  name : Option (List Nat)
  storeName : Option (List Nat)
  nonlocalForage : Option NlfDirOptions

/-- JavaScript truthiness of an optional string: `undefined` and the
empty string are falsy. -/
def jsTruthyStr (o : Option (List Nat)) : Bool :=
  match o with
  | some s => !s.isEmpty
  | none => false

/-- src/util.ts `cloudDirectory`: root directory from
`options.nonlocalForage.directory` (defaulting to the literal
`"nonlocalForage"`), then always `/<safeified name or "default">`, then
`/<safeified storeName or "default">` unless `nonlocalForage.noStore` is
set. Note: the `noName` flag is never consulted. -/
def cloudDirectory (o : CloudDirOptions) : List Nat :=
  let root :=
    match o.nonlocalForage with
    | some nlf =>
      if jsTruthyStr nlf.directory then nlf.directory.getD []
      else strUnits "nonlocalForage"
    | none => strUnits "nonlocalForage"
  let withName :=
    root ++ strUnits "/" ++
      (if jsTruthyStr o.name then safeify (o.name.getD [])
       else strUnits "default")
  let appendStore :=
    match o.nonlocalForage with
    | some nlf => !nlf.noStore
    | none => true
  if appendStore then
    withName ++ strUnits "/" ++
      (if jsTruthyStr o.storeName then safeify (o.storeName.getD [])
       else strUnits "default")
  else withName

/-- C8: the claim says the instance-name segment is omissible via the
`noName` flag. It is not: `cloudDirectory` never reads `noName`, so with
`noName: true` and `name: "x"` the produced path still contains the `x`
segment (while `noStore` does omit the store segment, and the root
default/override behave as claimed). -/
theorem cloudDirectory_ignores_noName :
    cloudDirectory
      { name := some (strUnits "x"), storeName := none,
        nonlocalForage := some
          { directory := none, noName := true, noStore := false } } =
      strUnits "nonlocalForage/x/default" ∧
    strUnits "nonlocalForage/x/default" ≠ strUnits "nonlocalForage/default" ∧
    cloudDirectory
      { name := some (strUnits "x"), storeName := none,
        nonlocalForage := some
          { directory := none, noName := true, noStore := true } } =
      strUnits "nonlocalForage/x" ∧
    cloudDirectory
      { name := none, storeName := none, nonlocalForage := none } =
      strUnits "nonlocalForage/default/default" ∧
    cloudDirectory
      { name := some (strUnits "x"), storeName := some (strUnits "y"),
        nonlocalForage := some
          { directory := some (strUnits "root"), noName := false,
            noStore := false } } =
      strUnits "root/x/y" := by
  refine ⟨?_, ?_, ?_, ?_, ?_⟩ <;> decide

/-- Contents of one backing store, modelled per the localforage contract
the engine consumes (spec section 6): an insertion-ordered association
list with at most one entry per key; `getItem` of an absent key is the
canonical not-found sentinel `none` (localforage's `null`), never an
error. -/
def lfGetItem {V : Type} : List (String × V) → String → Option V
  | [], _ => none
  | (k0, v0) :: rest, k => if k0 = k then some v0 else lfGetItem rest k

/-- localforage `setItem`: replace in place, or append a new entry. -/
def lfSetItem {V : Type} : List (String × V) → String → V → List (String × V)
  | [], k, v => [(k, v)]
  | (k0, v0) :: rest, k, v =>
    if k0 = k then (k, v) :: rest else (k0, v0) :: lfSetItem rest k v

/-- localforage `removeItem`: deleting an absent key is a no-op. -/
def lfRemoveItem {V : Type} : List (String × V) → String → List (String × V)
  | [], _ => []
  | (k0, v0) :: rest, k =>
    if k0 = k then lfRemoveItem rest k else (k0, v0) :: lfRemoveItem rest k

/-- localforage `keys`: the store's key list. -/
def lfKeys {V : Type} (st : List (String × V)) : List String :=
  st.map (fun p => p.1)

/-- localforage `iterate`: invoke the callback per entry; a defined
(non-`undefined`) return value stops that store's iteration early and
becomes the resolution value. Returns the keys the callback was invoked
on, and the early value if any. -/
def lfIterate {V R : Type} :
    List (String × V) → (String → V → Option R) → List String × Option R
  | [], _ => ([], none)
  | (k, v) :: rest, visit =>
    match visit k v with
    | some r => ([k], some r)
    | none =>
      let p := lfIterate rest visit
      (k :: p.1, p.2)

theorem lfGetItem_lfSetItem_self {V : Type} (st : List (String × V))
    (k : String) (v : V) : lfGetItem (lfSetItem st k v) k = some v := by
  induction st with
  | nil => simp [lfSetItem, lfGetItem]
  | cons p rest ih =>
    obtain ⟨k0, v0⟩ := p
    by_cases h : k0 = k <;> simp [lfSetItem, lfGetItem, h, ih]

theorem lfGetItem_lfRemoveItem_self {V : Type} (st : List (String × V))
    (k : String) : lfGetItem (lfRemoveItem st k) k = none := by
  induction st with
  | nil => simp [lfRemoveItem, lfGetItem]
  | cons p rest ih =>
    obtain ⟨k0, v0⟩ := p
    by_cases h : k0 = k <;> simp [lfRemoveItem, lfGetItem, h, ih]

theorem lfIterate_all_none {V R : Type} (st : List (String × V))
    (visit : String → V → Option R) (h : ∀ k v, visit k v = none) :
    lfIterate st visit = (lfKeys st, none) := by
  induction st with
  | nil => simp [lfIterate, lfKeys]
  | cons p rest ih =>
    obtain ⟨k, v⟩ := p
    simp [lfIterate, lfKeys, h, ih]

theorem lfIterate_visits_prefix {V R : Type} (st : List (String × V))
    (visit : String → V → Option R) :
    ∃ t, (lfIterate st visit).1 ++ t = lfKeys st := by
  induction st with
  | nil => exact ⟨[], rfl⟩
  | cons p rest ih =>
    obtain ⟨k, v⟩ := p
    obtain ⟨t, ht⟩ := ih
    cases hv : visit k v with
    | some r => exact ⟨lfKeys rest, by simp [lfIterate, hv, lfKeys]⟩
    | none => exact ⟨t, by simp [lfIterate, hv, lfKeys, ← ht]; simpa [lfKeys] using ht⟩

/-- Errors surfaced by the engine's public operations: an error value
from (or latched from) a backing store, or the `key()` method's explicit
`new Error("Key does not exist")`. -/
inductive EngErr (E : Type)
  | backend (e : E)
  | keyNotExist
deriving DecidableEq

/-- A store operation performed on one of the two backing stores; the
engine operations report the operations they perform so that
"fails without performing any I/O" is expressible. -/
inductive Access
  | localGet (key : String)
  | localSet (key : String)
  | localRemove (key : String)
  | localClear
  | localKeys
  | localIterate
  | localDrop
  | nonlocalGet (key : String)
  | nonlocalSet (key : String)
  | nonlocalRemove (key : String)
  | nonlocalClear
  | nonlocalKeys
  | nonlocalIterate
  | nonlocalDrop
deriving DecidableEq

/-- The deferred migration step that `setItem` chains onto
`nonlocalPromise`: it captures the key and the size estimate `sz`, but
*not* the value (the value is re-read from the local store when the step
runs). -/
structure MigrationStep where
  key : String
  sz : Int
deriving DecidableEq

/-- The engine's per-instance state `this._cf` (src/main.ts
`_initStorage`): the two stores behind the two promise chains, the
latched fatal error, and the cached-byte counter. The promise chains
themselves are sequencing tokens, not value carriers; in this sequential
model a public operation runs to completion on a quiescent engine, which
is exactly the per-chain FIFO order. The latch check `if (cf.error)
throw cf.error` is modelled on `Option`: rejection reasons are assumed
truthy (they are `Error` objects). -/
structure CacheForage (V E : Type) where
  localStore : List (String × V)
  nonlocalStore : List (String × V)
  error : Option E
  cachedSize : Int
deriving DecidableEq

/-- Result of a public engine operation: the caller-visible result (the
settled promise), the engine state afterwards, and the store operations
performed. -/
structure OpOut (V E α : Type) where
  result : Except (EngErr E) α
  state : CacheForage V E
  accesses : List Access

/-- Result of `setItem`: additionally records the migration step
enqueued on the remote chain (`none` when the operation failed fast and
enqueued nothing). -/
structure SetOut (V E : Type) where
  result : Except (EngErr E) Unit
  state : CacheForage V E
  migration : Option MigrationStep
  accesses : List Access

/-- Result of `iterate`: the resolution value of the returned promise,
the keys the iterator callback was invoked on (local pass then remote
pass), the state and the store operations. -/
structure IterOut (V E R : Type) where
  result : Except (EngErr E) (Option R)
  visited : List String
  state : CacheForage V E
  accesses : List Access

namespace CacheForage

variable {V E R : Type}

/-- src/main.ts `getItem`: fail fast on the latch; read local; only when
the local read yields `null` fall back to a remote read; absent from
both yields `null`, not an error. -/
def getItem (s : CacheForage V E) (key : String) : OpOut V E (Option V) :=
  match s.error with
  | some e => ⟨.error (.backend e), s, []⟩
  | none =>
    match lfGetItem s.localStore key with
    | some v => ⟨.ok (some v), s, [.localGet key]⟩
    | none =>
      ⟨.ok (lfGetItem s.nonlocalStore key), s,
       [.localGet key, .nonlocalGet key]⟩

/-- src/main.ts `setItem`: fail fast on the latch; add
`approxSize(value)` to the cached-byte counter; write the value to the
local store (under the per-key lock) — this is what the returned promise
resolves on; enqueue the deferred migration step (key and size only; the
value is re-read at migration time) on the remote chain. -/
def setItem (size : V → Int) (s : CacheForage V E) (key : String) (v : V) :
    SetOut V E :=
  match s.error with
  | some e => ⟨.error (.backend e), s, none, []⟩
  | none =>
    let sz := size v
    ⟨.ok (), { s with localStore := lfSetItem s.localStore key v,
                      cachedSize := s.cachedSize + sz },
     some ⟨key, sz⟩, [.localSet key]⟩

/-- src/main.ts `setItem`'s migration step, as it runs later on the
remote chain (under the per-key lock): re-read the *current* local
value; if still present, write it to the remote store; then remove the
local copy and subtract the size estimate. `remoteSetFail` is the remote
backend's behaviour for the `setItem` call: `some e` means it rejects
with `e`, in which case the rest of the step does not run and the
chain's `.catch(x => cf.error = x)` latches `e` — nothing is thrown to
any caller. -/
def runMigration (remoteSetFail : Option E) (s : CacheForage V E)
    (m : MigrationStep) : CacheForage V E × List Access :=
  match lfGetItem s.localStore m.key with
  | some v =>
    match remoteSetFail with
    | some e =>
      ({ s with error := some e }, [.localGet m.key, .nonlocalSet m.key])
    | none =>
      ({ s with nonlocalStore := lfSetItem s.nonlocalStore m.key v,
                localStore := lfRemoveItem s.localStore m.key,
                cachedSize := s.cachedSize - m.sz },
       [.localGet m.key, .nonlocalSet m.key, .localRemove m.key])
  | none =>
    ({ s with localStore := lfRemoveItem s.localStore m.key,
              cachedSize := s.cachedSize - m.sz },
     [.localGet m.key, .localRemove m.key])

/-- src/main.ts `removeItem`: fail fast on the latch; delete from both
stores (local deletion under the per-key lock); resolve once both are
done. Deleting an absent key is a no-op in both stores. -/
def removeItem (s : CacheForage V E) (key : String) : OpOut V E Unit :=
  match s.error with
  | some e => ⟨.error (.backend e), s, []⟩
  | none =>
    ⟨.ok (), { s with localStore := lfRemoveItem s.localStore key,
                      nonlocalStore := lfRemoveItem s.nonlocalStore key },
     [.localRemove key, .nonlocalRemove key]⟩

/-- src/main.ts `clear`: fail fast on the latch; clear both stores. -/
def clear (s : CacheForage V E) : OpOut V E Unit :=
  match s.error with
  | some e => ⟨.error (.backend e), s, []⟩
  | none =>
    ⟨.ok (), { s with localStore := [], nonlocalStore := [] },
     [.localClear, .nonlocalClear]⟩

/-- src/main.ts `keys`: fail fast on the latch; the local store's key
list concatenated with the remote store's key list — no
deduplication. -/
def keys (s : CacheForage V E) : OpOut V E (List String) :=
  match s.error with
  | some e => ⟨.error (.backend e), s, []⟩
  | none =>
    ⟨.ok (lfKeys s.localStore ++ lfKeys s.nonlocalStore), s,
     [.localKeys, .nonlocalKeys]⟩

/-- src/main.ts `length`: `(await keys.call(this)).length` (the latch
check happens inside `keys`). -/
def length (s : CacheForage V E) : OpOut V E Nat :=
  let ko := keys s
  match ko.result with
  | .error err => ⟨.error err, ko.state, ko.accesses⟩
  | .ok l => ⟨.ok l.length, ko.state, ko.accesses⟩

/-- src/main.ts `key`: `const key = (await keys.call(this))[index];
if (key) { ... return key; } throw new Error("Key does not exist")` —
the looked-up entry is tested for *truthiness*, so both an out-of-range
index (`undefined`) and an in-range empty string throw. -/
def key (s : CacheForage V E) (index : Nat) : OpOut V E String :=
  let ko := keys s
  match ko.result with
  | .error err => ⟨.error err, ko.state, ko.accesses⟩
  | .ok l =>
    match l[index]? with
    | some k =>
      if k ≠ "" then ⟨.ok k, ko.state, ko.accesses⟩
      else ⟨.error .keyNotExist, ko.state, ko.accesses⟩
    | none => ⟨.error .keyNotExist, ko.state, ko.accesses⟩

/-- src/main.ts `iterate`: fail fast on the latch; run the local store's
iteration, then — unconditionally, whatever the local pass returned —
the remote store's iteration; the wrapping promise resolves with the
async closure's return value, which is `undefined` (the sub-iterations'
early values are discarded). -/
def iterate (s : CacheForage V E) (visit : String → V → Option R) :
    IterOut V E R :=
  match s.error with
  | some e => ⟨.error (.backend e), [], s, []⟩
  | none =>
    let p1 := lfIterate s.localStore visit
    let p2 := lfIterate s.nonlocalStore visit
    ⟨.ok none, p1.1 ++ p2.1, s, [.localIterate, .nonlocalIterate]⟩

/-- src/main.ts `dropInstance`: fail fast on the latch; delegate to both
stores' `dropInstance`. The dropped namespace is a different
(name, storeName) pair from the one this engine instance fronts, so its
effect is outside the modelled store contents. -/
def dropInstance (s : CacheForage V E) : OpOut V E Unit :=
  match s.error with
  | some e => ⟨.error (.backend e), s, []⟩
  | none => ⟨.ok (), s, [.localDrop, .nonlocalDrop]⟩

end CacheForage

open CacheForage

/-- Shared helper: on a latched engine every public operation returns the
latched error, leaves the state untouched, performs no store operation
and (for `setItem`) enqueues no migration step. -/
theorem latchedOps {V E R : Type} (s : CacheForage V E) (e : E)
    (he : s.error = some e) (size : V → Int) (k : String) (v : V)
    (idx : Nat) (visit : String → V → Option R) :
    getItem s k = ⟨.error (.backend e), s, []⟩ ∧
    setItem size s k v = ⟨.error (.backend e), s, none, []⟩ ∧
    removeItem s k = ⟨.error (.backend e), s, []⟩ ∧
    clear s = ⟨.error (.backend e), s, []⟩ ∧
    keys s = ⟨.error (.backend e), s, []⟩ ∧
    CacheForage.length s = ⟨.error (.backend e), s, []⟩ ∧
    CacheForage.key s idx = ⟨.error (.backend e), s, []⟩ ∧
    iterate s visit = ⟨.error (.backend e), [], s, []⟩ ∧
    dropInstance s = ⟨.error (.backend e), s, []⟩ := by
  refine ⟨?_, ?_, ?_, ?_, ?_, ?_, ?_, ?_, ?_⟩ <;>
    simp [getItem, setItem, removeItem, clear, keys, CacheForage.length,
          CacheForage.key, iterate, dropInstance, he]

/-- C3: once the latch is set, every public operation (getItem, setItem,
removeItem, clear, keys, length, key, iterate, dropInstance) fails
immediately with the latched error, enqueues nothing (no migration step)
and performs no store I/O (empty access list, state unchanged); and no
operation — the migration step included, whether it succeeds or fails —
ever clears the latch. -/
theorem latched_engine_fails_fast {V E R : Type} (s : CacheForage V E)
    (e : E) (he : s.error = some e) (size : V → Int) (k : String) (v : V)
    (idx : Nat) (visit : String → V → Option R) :
    (getItem s k = ⟨.error (.backend e), s, []⟩ ∧
     setItem size s k v = ⟨.error (.backend e), s, none, []⟩ ∧
     removeItem s k = ⟨.error (.backend e), s, []⟩ ∧
     clear s = ⟨.error (.backend e), s, []⟩ ∧
     keys s = ⟨.error (.backend e), s, []⟩ ∧
     CacheForage.length s = ⟨.error (.backend e), s, []⟩ ∧
     CacheForage.key s idx = ⟨.error (.backend e), s, []⟩ ∧
     iterate s visit = ⟨.error (.backend e), [], s, []⟩ ∧
     dropInstance s = ⟨.error (.backend e), s, []⟩) ∧
    (∀ (fail : Option E) (m : MigrationStep),
      ((runMigration fail s m).1.error).isSome = true) := by
  refine ⟨latchedOps s e he size k v idx visit, fun fail m => ?_⟩
  cases hg : lfGetItem s.localStore m.key <;> cases fail <;>
    simp [runMigration, hg, he]

/-- Witness for C3 at a concrete latched engine. -/
theorem latched_engine_fails_fast_witness :
    getItem (⟨[("x", 5)], [], some 7, 0⟩ : CacheForage Nat Nat) "x" =
      ⟨.error (.backend 7), ⟨[("x", 5)], [], some 7, 0⟩, []⟩ ∧
    ((runMigration (none : Option Nat)
        (⟨[("x", 5)], [], some 7, 0⟩ : CacheForage Nat Nat)
        ⟨"x", 1⟩).1.error).isSome = true :=
  ⟨(latched_engine_fails_fast ⟨[("x", 5)], [], some 7, 0⟩ 7 rfl
      (fun _ => 1) "x" 5 0 (fun _ _ => (none : Option Nat))).1.1,
   (latched_engine_fails_fast ⟨[("x", 5)], [], some 7, 0⟩ 7 rfl
      (fun _ => 1) "x" 5 0 (fun _ _ => (none : Option Nat))).2 none ⟨"x", 1⟩⟩

/-- C2: on a non-latched engine, if the remote store's `setItem` rejects
with `e` when the migration step runs, then the triggering `setItem`'s
own promise still resolved successfully (the local write completed and
the migration step was enqueued before the failure), the migration step
latches `e`, and every kind of public operation invoked afterwards
rejects with exactly that latched error. -/
theorem migration_failure_latches {V E R : Type} (size : V → Int)
    (s : CacheForage V E) (hs : s.error = none) (k : String) (v : V)
    (e : E) (k2 : String) (v2 : V) (idx : Nat)
    (visit : String → V → Option R) :
    (setItem size s k v).result = .ok () ∧
    (setItem size s k v).migration = some ⟨k, size v⟩ ∧
    (runMigration (some e) (setItem size s k v).state ⟨k, size v⟩).1.error
      = some e ∧
    (getItem
      (runMigration (some e) (setItem size s k v).state ⟨k, size v⟩).1
      k2).result = .error (.backend e) ∧
    (setItem size
      (runMigration (some e) (setItem size s k v).state ⟨k, size v⟩).1
      k2 v2).result = .error (.backend e) ∧
    (removeItem
      (runMigration (some e) (setItem size s k v).state ⟨k, size v⟩).1
      k2).result = .error (.backend e) ∧
    (clear
      (runMigration (some e) (setItem size s k v).state ⟨k, size v⟩).1
      ).result = .error (.backend e) ∧
    (keys
      (runMigration (some e) (setItem size s k v).state ⟨k, size v⟩).1
      ).result = .error (.backend e) ∧
    (CacheForage.length
      (runMigration (some e) (setItem size s k v).state ⟨k, size v⟩).1
      ).result = .error (.backend e) ∧
    (CacheForage.key
      (runMigration (some e) (setItem size s k v).state ⟨k, size v⟩).1
      idx).result = .error (.backend e) ∧
    (iterate
      (runMigration (some e) (setItem size s k v).state ⟨k, size v⟩).1
      visit).result = .error (.backend e) ∧
    (dropInstance
      (runMigration (some e) (setItem size s k v).state ⟨k, size v⟩).1
      ).result = .error (.backend e) := by
  refine ⟨by simp [setItem, hs], by simp [setItem, hs],
          ?_, ?_, ?_, ?_, ?_, ?_, ?_, ?_, ?_, ?_⟩ <;>
    simp [getItem, setItem, removeItem, clear, keys, CacheForage.length,
          CacheForage.key, iterate, dropInstance, hs, runMigration,
          lfGetItem_lfSetItem_self]

/-- Witness for C2 at a concrete engine, key and error. -/
theorem migration_failure_latches_witness :
    (setItem (fun _ => 2) (⟨[], [], none, 0⟩ : CacheForage String Nat)
      "k" "v1").result = .ok () ∧
    (runMigration (some 9)
      (setItem (fun _ => 2) (⟨[], [], none, 0⟩ : CacheForage String Nat)
        "k" "v1").state ⟨"k", 2⟩).1.error = some 9 ∧
    (getItem
      (runMigration (some 9)
        (setItem (fun _ => 2) (⟨[], [], none, 0⟩ : CacheForage String Nat)
          "k" "v1").state ⟨"k", 2⟩).1 "z").result = .error (.backend 9) :=
  ⟨(migration_failure_latches (fun _ => 2) ⟨[], [], none, 0⟩ rfl "k" "v1" 9
      "z" "w" 0 (fun _ _ => (none : Option Nat))).1,
   (migration_failure_latches (fun _ => 2) ⟨[], [], none, 0⟩ rfl "k" "v1" 9
      "z" "w" 0 (fun _ _ => (none : Option Nat))).2.2.1,
   (migration_failure_latches (fun _ => 2) ⟨[], [], none, 0⟩ rfl "k" "v1" 9
      "z" "w" 0 (fun _ _ => (none : Option Nat))).2.2.2.1⟩

/-- C7: on a non-latched engine, `keys()` is the local key list
concatenated with the remote key list, so a key counted in both stores
appears with the sum of its multiplicities (duplicates preserved), and
`length()` is exactly the length of that concatenation. -/
theorem keys_concat_no_dedup {V E : Type} (s : CacheForage V E)
    (hs : s.error = none) :
    (keys s).result = .ok (lfKeys s.localStore ++ lfKeys s.nonlocalStore) ∧
    (∀ k : String,
      (lfKeys s.localStore ++ lfKeys s.nonlocalStore).count k =
        (lfKeys s.localStore).count k + (lfKeys s.nonlocalStore).count k) ∧
    (CacheForage.length s).result =
      .ok (lfKeys s.localStore ++ lfKeys s.nonlocalStore).length := by
  refine ⟨by simp [keys, hs], fun k => List.count_append k _ _,
          by simp [CacheForage.length, keys, hs]⟩

/-- Witness for C7, the spec's Scenario E: local store `{"a"}`, remote
store `{"a", "b"}` mid-migration yields `["a", "a", "b"]` and
length 3. -/
theorem keys_concat_no_dedup_witness :
    (keys (⟨[("a", 0)], [("a", 1), ("b", 2)], none, 0⟩ :
      CacheForage Nat Nat)).result = .ok ["a", "a", "b"] ∧
    (CacheForage.length (⟨[("a", 0)], [("a", 1), ("b", 2)], none, 0⟩ :
      CacheForage Nat Nat)).result = .ok 3 :=
  ⟨(keys_concat_no_dedup ⟨[("a", 0)], [("a", 1), ("b", 2)], none, 0⟩ rfl).1,
   (keys_concat_no_dedup ⟨[("a", 0)], [("a", 1), ("b", 2)], none, 0⟩
      rfl).2.2⟩

/-- C9: `key(index)` tests the looked-up entry for truthiness, so on any
non-latched engine whose concatenated key list holds the empty string at
position `index`, `key(index)` throws the "Key does not exist" error even
though `index` is in range. -/
theorem key_empty_string_throws {V E : Type} (s : CacheForage V E)
    (hs : s.error = none) (idx : Nat)
    (hk : (lfKeys s.localStore ++ lfKeys s.nonlocalStore)[idx]? = some "") :
    (CacheForage.key s idx).result = .error .keyNotExist ∧
    idx < (lfKeys s.localStore ++ lfKeys s.nonlocalStore).length := by
  constructor
  · simp [CacheForage.key, keys, hs, hk]
  · exact List.getElem?_eq_some_iff.mp hk |>.1

/-- Witness for C9: a store holding the key `""` at index 0. -/
theorem key_empty_string_throws_witness :
    (CacheForage.key (⟨[("", 5)], [], none, 0⟩ : CacheForage Nat Nat)
      0).result = .error .keyNotExist ∧
    0 < (lfKeys [(("" : String), (5 : Nat))] ++ lfKeys ([] : List (String × Nat))).length :=
  ⟨(key_empty_string_throws (⟨[("", 5)], [], none, 0⟩ : CacheForage Nat Nat)
      rfl 0 rfl).1,
   (key_empty_string_throws (⟨[("", 5)], [], none, 0⟩ : CacheForage Nat Nat)
      rfl 0 rfl).2⟩

/-- Concrete engine for the C6 counterexample: one local key `"a"`, one
remote key `"b"`. -/
def sC6 : CacheForage Nat Nat :=
  ⟨[("a", 1)], [("b", 2)], none, 0⟩

/-- A visitor that returns a defined value on every key (in particular on
the first local key `"a"`). -/
def visitC6 : String → Nat → Option Nat :=
  fun _ _ => some 42

/-- C6 counterexample: with local `{"a"}`, remote `{"b"}` and a visitor
returning the defined value 42 on `"a"`, the claim demands that no later
key be visited and that 42 be the overall result of the iterate call; the
code nevertheless visits the remote key `"b"` and resolves with
`undefined`. -/
theorem iterate_early_exit_counterexample :
    (iterate sC6 visitC6).visited = ["a", "b"] ∧
    (iterate sC6 visitC6).result = .ok none ∧
    ¬((iterate sC6 visitC6).visited = ["a"] ∧
      (iterate sC6 visitC6).result = .ok (some 42)) := by
  refine ⟨rfl, rfl, fun h => ?_⟩
  exact absurd h.1 (by decide)

/-- C6 as amended: on a non-latched engine, `iterate` resolves with
`undefined` (never the visitor's value), the visited keys are the local
pass's keys followed by the remote pass's keys, each pass visits a prefix
of its store's keys (a defined visitor value stops only that store's own
pass), a defined value in the local pass does not prevent the remote
pass, and when the visitor never returns a defined value every local key
and then every remote key is visited, without deduplication. -/
theorem iterate_behavior {V E R : Type} (s : CacheForage V E)
    (hs : s.error = none) (visit : String → V → Option R) :
    (iterate s visit).result = .ok none ∧
    (iterate s visit).visited =
      (lfIterate s.localStore visit).1 ++ (lfIterate s.nonlocalStore visit).1 ∧
    (∃ t, (lfIterate s.localStore visit).1 ++ t = lfKeys s.localStore) ∧
    (∃ t, (lfIterate s.nonlocalStore visit).1 ++ t = lfKeys s.nonlocalStore) ∧
    ((∀ k v, visit k v = none) →
      (iterate s visit).visited =
        lfKeys s.localStore ++ lfKeys s.nonlocalStore) := by
  refine ⟨by simp [iterate, hs], by simp [iterate, hs],
          lfIterate_visits_prefix _ _, lfIterate_visits_prefix _ _,
          fun h => ?_⟩
  simp [iterate, hs, lfIterate_all_none _ _ h]

/-- Witness for C6's amended statement on a concrete engine with an
always-`undefined` visitor: both keys visited, result `undefined`. -/
theorem iterate_behavior_witness :
    (iterate sC6 (fun _ _ => (none : Option Nat))).result = .ok none ∧
    (iterate sC6 (fun _ _ => (none : Option Nat))).visited = ["a", "b"] :=
  ⟨(iterate_behavior sC6 rfl (fun _ _ => (none : Option Nat))).1,
   (iterate_behavior sC6 rfl (fun _ _ => (none : Option Nat))).2.2.2.2
     (fun _ _ => rfl)⟩

/-- The four per-key-lock-protected blocks of Scenario C (two
back-to-back `setItem("k", v1)` / `setItem("k", v2)` calls): `w1`/`w2`
are the two local writes on the local chain, `m1`/`m2` the two migration
steps on the remote chain. Every access to the key in this scenario
happens inside a `cf.local.lock(key, ...)` block, so blocks execute
atomically with respect to one another; the event loop only chooses
their order. -/
inductive SetSetBlock
  | w1
  | w2
  | m1
  | m2
deriving DecidableEq

/-- Effect of one block on the engine state: the local writes are the
bodies of `setItem`'s local-chain steps, and the migration blocks are
exactly `runMigration` with a succeeding remote store (the synchronous
cached-size increments happened at call time and play no role here). -/
def runBlock {V E : Type} (size1 size2 : Int) (k : String) (v1 v2 : V)
    (s : CacheForage V E) : SetSetBlock → CacheForage V E
  | .w1 => { s with localStore := lfSetItem s.localStore k v1 }
  | .w2 => { s with localStore := lfSetItem s.localStore k v2 }
  | .m1 => (runMigration none s ⟨k, size1⟩).1
  | .m2 => (runMigration none s ⟨k, size2⟩).1

/-- Execute a schedule of blocks from an initial state. -/
def execSchedule {V E : Type} (size1 size2 : Int) (k : String) (v1 v2 : V)
    (l : List SetSetBlock) (init : CacheForage V E) : CacheForage V E :=
  l.foldl (fun s b => runBlock size1 size2 k v1 v2 s b) init

/-- The schedules the event loop can produce: each block occurs exactly
once, `w2` after `w1` (same local chain, enqueued in call order), `m2`
after `m1` (same remote chain), `m1` after `w1` (the migration step is
only enqueued when the triggering local write has resolved) and `m2`
after `w2` (likewise). -/
def ValidSchedule (l : List SetSetBlock) : Prop :=
  List.Perm l [SetSetBlock.w1, SetSetBlock.w2, SetSetBlock.m1, SetSetBlock.m2] ∧
  l.indexOf SetSetBlock.w1 < l.indexOf SetSetBlock.w2 ∧
  l.indexOf SetSetBlock.w1 < l.indexOf SetSetBlock.m1 ∧
  l.indexOf SetSetBlock.m1 < l.indexOf SetSetBlock.m2 ∧
  l.indexOf SetSetBlock.w2 < l.indexOf SetSetBlock.m2

instance (l : List SetSetBlock) : Decidable (ValidSchedule l) := by
  unfold ValidSchedule
  infer_instance

/-- Only two schedules satisfy the chain and enqueue-order constraints:
the migration of `v1` runs either after both local writes or between
them. -/
theorem validSchedule_cases (l : List SetSetBlock) (h : ValidSchedule l) :
    l = [.w1, .w2, .m1, .m2] ∨ l = [.w1, .m1, .w2, .m2] := by
  have hlen : l.length = 4 := h.1.length_eq
  rcases l with _ | ⟨a, _ | ⟨b, _ | ⟨c, _ | ⟨d, _ | ⟨e, t⟩⟩⟩⟩⟩ <;>
    simp only [List.length_cons, List.length_nil] at hlen <;>
    try omega
  cases a <;> cases b <;> cases c <;> cases d <;> revert h <;> decide

/-- C1: for every key, pair of values, initial store contents and valid
interleaving of the four blocks, once both chains have drained the key is
absent from the local store and maps to `v2` in the remote store — so
`v2` is in exactly one of the two stores and `v1` (when different from
`v2`) in neither. This relies on the migration step re-reading the
current local value (`runBlock`'s migration cases call `runMigration`,
which re-reads) rather than using the value captured at call time. -/
theorem scenarioC_final_state {V E : Type} (size1 size2 : Int) (k : String)
    (v1 v2 : V) (init : CacheForage V E) (l : List SetSetBlock)
    (h : ValidSchedule l) :
    lfGetItem (execSchedule size1 size2 k v1 v2 l init).localStore k
      = none ∧
    lfGetItem (execSchedule size1 size2 k v1 v2 l init).nonlocalStore k
      = some v2 ∧
    (∀ u : V, u ≠ v2 →
      lfGetItem (execSchedule size1 size2 k v1 v2 l init).localStore k
        ≠ some u ∧
      lfGetItem (execSchedule size1 size2 k v1 v2 l init).nonlocalStore k
        ≠ some u) := by
  rcases validSchedule_cases l h with rfl | rfl <;>
    refine ⟨?_, ?_, fun u hu => ⟨?_, ?_⟩⟩ <;>
      simp [execSchedule, runBlock, runMigration,
            lfGetItem_lfSetItem_self, lfGetItem_lfRemoveItem_self] <;>
      exact fun hh => hu hh.symm

/-- Witness for C1 at a concrete schedule, key, values and empty initial
stores. -/
theorem scenarioC_final_state_witness :
    lfGetItem (execSchedule 2 2 "k" "v1" "v2"
      [SetSetBlock.w1, SetSetBlock.w2, SetSetBlock.m1, SetSetBlock.m2]
      (⟨[], [], none, 0⟩ : CacheForage String Nat)).localStore "k"
      = none ∧
    lfGetItem (execSchedule 2 2 "k" "v1" "v2"
      [SetSetBlock.w1, SetSetBlock.w2, SetSetBlock.m1, SetSetBlock.m2]
      (⟨[], [], none, 0⟩ : CacheForage String Nat)).nonlocalStore "k"
      = some "v2" :=
  ⟨(scenarioC_final_state 2 2 "k" "v1" "v2"
      (⟨[], [], none, 0⟩ : CacheForage String Nat)
      [SetSetBlock.w1, SetSetBlock.w2, SetSetBlock.m1, SetSetBlock.m2]
      (by decide)).1,
   (scenarioC_final_state 2 2 "k" "v1" "v2"
      (⟨[], [], none, 0⟩ : CacheForage String Nat)
      [SetSetBlock.w1, SetSetBlock.w2, SetSetBlock.m1, SetSetBlock.m2]
      (by decide)).2.1⟩

end NonlocalForage
